import Mathlib

/-!
Verification of the genotype representation and comparison engine of the
pydigree repository (pydigree/genotypes.py, with the IBS comparator of
pydigree/ibs.py modelled from the specification, since only its tests are
available).  Python integer/string allele values are embedded as `PyVal`,
numpy arrays as Lean lists, and every fallible operation returns `Except`.
-/

instance {ε α : Type} [DecidableEq ε] [DecidableEq α] : DecidableEq (Except ε α) :=
  fun a b =>
    match a, b with
    | .error e, .error f =>
        if h : e = f then isTrue (congrArg Except.error h)
        else isFalse (fun hc => h (Except.error.inj hc))
    | .ok x, .ok y =>
        if h : x = y then isTrue (congrArg Except.ok h)
        else isFalse (fun hc => h (Except.ok.inj hc))
    | .error _, .ok _ => isFalse (fun hc => Except.noConfusion hc)
    | .ok _, .error _ => isFalse (fun hc => Except.noConfusion hc)

/-- A value stored in a genotype array: either an integer allele code or a
string allele code.  Python equality between an `int` and a `str` is `False`,
which structural equality on this sum type reproduces. -/
inductive PyVal where
  | int (n : ℤ)
  | str (s : String)
deriving DecidableEq

/-- The errors raised by the genotype engine: `NotMeaningfulError` for
ordering comparisons on genotypes, `ValueError` for size mismatches and
invalid frequencies, `IndexError` for out-of-range list indexing, and
`AttributeError` for references to attributes that do not exist. -/
inductive GenoError where
  | notMeaningful
  | sizeMismatch
  | valueError
  | indexError
  | attributeError
deriving DecidableEq

/-- The result of a numpy elementwise comparison of two 1-D arrays: a boolean
mask when the shapes broadcast, and otherwise the scalar `False` that numpy's
fallback produces for non-broadcastable `==` comparisons. -/
inductive DenseCmpResult where
  | mask (m : List Bool)
  | scalar (b : Bool)
deriving DecidableEq

/-- numpy 1-D broadcasting for an elementwise comparison: equal lengths
compare pointwise, a length-1 operand broadcasts against the other, and any
other shape combination falls back to the scalar `False`. -/
def npBroadcastCmp {α : Type} (cmp : α → α → Bool) (a b : List α) : DenseCmpResult :=
  if a.length = b.length then
    .mask (List.zipWith cmp a b)
  else
    match a, b with
    | [x], ys => .mask (ys.map (fun y => cmp x y))
    | xs, [y] => .mask (xs.map (fun x => cmp x y))
    | _, _ => .scalar false

/-- Python 2 ordering on array elements: integers compare numerically,
strings lexicographically, and any number orders before any string. -/
def pyLe : PyVal → PyVal → Bool
  | .int a, .int b => decide (a ≤ b)
  | .str a, .str b => decide (a ≤ b)
  | .int _, .str _ => true
  | .str _, .int _ => false

/-- Python 2 strict ordering on array elements, mirroring `pyLe`. -/
def pyGe : PyVal → PyVal → Bool
  | .int a, .int b => decide (b ≤ a)
  | .str a, .str b => decide (b ≤ a)
  | .int _, .str _ => false
  | .str _, .int _ => true

/-- A dense genotype container: `GenotypedChromosome` subclasses
`numpy.ndarray`, so it is one ordered sequence of allele values. -/
abbrev GenotypedChromosome := List PyVal

/-- Lift a list of integer allele codes into a dense container. -/
def denseOfInts (data : List ℤ) : GenotypedChromosome := data.map PyVal.int

/-- `GenotypedChromosome.__lt__` raises `NotMeaningfulError` unconditionally. -/
def GenotypedChromosome.lt (_a _b : GenotypedChromosome) :
    Except GenoError DenseCmpResult :=
  .error .notMeaningful

/-- `GenotypedChromosome.__gt__` raises `NotMeaningfulError` unconditionally. -/
def GenotypedChromosome.gt (_a _b : GenotypedChromosome) :
    Except GenoError DenseCmpResult :=
  .error .notMeaningful

/-- The behavior of `a <= b` on dense containers.  The class defines a plain
method named `__lte__`, which is not the Python comparison hook (`__le__`),
so the operator resolves to `numpy.ndarray.__le__`: the elementwise
comparison, never an exception. -/
def GenotypedChromosome.le (a b : GenotypedChromosome) : DenseCmpResult :=
  npBroadcastCmp pyLe a b

/-- The behavior of `a >= b` on dense containers: as with `<=`, the method
named `__gte__` is not the Python hook (`__ge__`), so `numpy.ndarray.__ge__`
applies elementwise. -/
def GenotypedChromosome.ge (a b : GenotypedChromosome) : DenseCmpResult :=
  npBroadcastCmp pyGe a b

/-- The behavior of `a == b` on dense containers: `__eq__` is not overridden,
so `numpy.ndarray.__eq__` applies: elementwise when the shapes broadcast, and
the scalar `False` fallback when they do not. -/
def GenotypedChromosome.eq (a b : GenotypedChromosome) : DenseCmpResult :=
  npBroadcastCmp (fun x y => decide (x = y)) a b

/-- The method body of `__lte__` as written in the source: it raises
`NotMeaningfulError`, but the Python runtime never calls it for `<=`. -/
def GenotypedChromosome.lteMethod (_a _b : GenotypedChromosome) :
    Except GenoError DenseCmpResult :=
  .error .notMeaningful

/-- The method body of `__gte__` as written in the source: it raises
`NotMeaningfulError`, but the Python runtime never calls it for `>=`. -/
def GenotypedChromosome.gteMethod (_a _b : GenotypedChromosome) :
    Except GenoError DenseCmpResult :=
  .error .notMeaningful

/-- The sparse genotype container: records the dtype, the source length, the
list of `(index, allele)` pairs for entries differing from the reference
code, and the list of indices whose entry equals the missing string. -/
structure SparseGenotypedChromosome where
  isIntDtype : Bool
  size : ℕ
  non_refalleles : List (ℕ × PyVal)
  missingindices : List ℕ
deriving DecidableEq

/-- `__array2nonref`: the reference code is the integer 0 for integer dtypes
and the string "0" otherwise; every `(index, value)` pair whose value differs
from it is kept. -/
def array2nonref (isInt : Bool) (data : List PyVal) : List (ℕ × PyVal) :=
  data.enum.filter
    (fun p => decide (p.2 ≠ (if isInt then PyVal.int 0 else PyVal.str "0")))

/-- `__array2missing`: keeps the indices whose value compares equal to the
empty string — a comparison that is `False` for every integer value, since
Python cross-type equality is `False`. -/
def array2missing (data : List PyVal) : List ℕ :=
  (data.enum.filter (fun p => decide (p.2 = PyVal.str ""))).map Prod.fst

/-- `SparseGenotypedChromosome.__init__` from a source array with the given
dtype: records size, non-reference pairs and missing indices. -/
def SparseGenotypedChromosome.ofData (isInt : Bool) (data : List PyVal) :
    SparseGenotypedChromosome :=
  ⟨isInt, data.length, array2nonref isInt data, array2missing data⟩

/-- Construct a sparse container from an integer-dtype source array. -/
def ofInts (data : List ℤ) : SparseGenotypedChromosome :=
  .ofData true (data.map PyVal.int)

/-- Construct a sparse container from a string-dtype source array. -/
def ofStrs (data : List String) : SparseGenotypedChromosome :=
  .ofData false (data.map PyVal.str)

/-- The `missing` property of the sparse container: a boolean mask of length
`size`, true exactly at the recorded missing indices. -/
def SparseGenotypedChromosome.missing (c : SparseGenotypedChromosome) : List Bool :=
  (List.range c.size).map (fun j => decide (j ∈ c.missingindices))

/-- `SparseGenotypedChromosome.__eq__`: raises on a size mismatch, marks the
symmetric difference of the non-reference index sets unequal, and for each
index `i` in the intersection compares `self.non_refalleles[i]` with
`other.non_refalleles[i]` — indexing the pair lists by the chromosome
position `i`, exactly as the source does, which raises `IndexError` whenever
some intersection index reaches past either pair list. -/
def SparseGenotypedChromosome.eq (a b : SparseGenotypedChromosome) :
    Except GenoError (List Bool) :=
  if a.size ≠ b.size then .error .sizeMismatch
  else
    let locsA := a.non_refalleles.map Prod.fst
    let locsB := b.non_refalleles.map Prod.fst
    let inter := (List.range a.size).filter
      (fun j => decide (j ∈ locsA) && decide (j ∈ locsB))
    let symdiff := (List.range a.size).filter
      (fun j => decide (j ∈ locsA) != decide (j ∈ locsB))
    if inter.any (fun i =>
        decide (a.non_refalleles.length ≤ i) || decide (b.non_refalleles.length ≤ i)) then
      .error .indexError
    else
      .ok ((List.range a.size).map (fun j =>
        if j ∈ symdiff then false
        else if j ∈ inter then
          decide (a.non_refalleles.getD j (0, PyVal.int 0)
            = b.non_refalleles.getD j (0, PyVal.int 0))
        else true))

/-- `todense` as written in the source: its body references `np.zeroes`,
`self.nmark` and `self.nonref_alleles`, none of which exist (numpy defines
`zeros`, and the class defines `size` and `non_refalleles`), so every call
raises `AttributeError` before constructing any array. -/
def SparseGenotypedChromosome.todense (_c : SparseGenotypedChromosome) :
    Except GenoError (List PyVal) :=
  .error .attributeError

/-- Modelled from the spec: the intended `to_dense` of §4.3 (the source body
is unusable, see `todense`): a full-length sequence initialized to the
reference code, overwritten at every recorded non-reference index with its
stored allele, with every recorded missing index set to the missing code. -/
def SparseGenotypedChromosome.todenseSpec (c : SparseGenotypedChromosome) :
    List PyVal :=
  (List.range c.size).map (fun j =>
    if j ∈ c.missingindices then (if c.isIntDtype then PyVal.int 0 else PyVal.str "")
    else
      match List.lookup j c.non_refalleles with
      | some v => v
      | none => (if c.isIntDtype then PyVal.int 0 else PyVal.str ""))

/-- Modelled from the spec: single-marker IBS (§4.4); the file pydigree/ibs.py
is not among the sources, only its tests.  Given two genotypes (2-element
allele pairs), return `missingval` when either genotype consists entirely of
the missing code 0, and otherwise the multiset intersection size of the two
genotypes, capped at 2. -/
def ibs (g1 g2 : PyVal × PyVal) (missingval : Option ℤ) : Option ℤ :=
  if (g1.1 = PyVal.int 0 ∧ g1.2 = PyVal.int 0)
      ∨ (g2.1 = PyVal.int 0 ∧ g2.2 = PyVal.int 0) then
    missingval
  else
    some (min 2 (Multiset.card (({g1.1, g1.2} : Multiset PyVal) ∩ {g2.1, g2.2})))

/-- A genotype container of either encoding, as accepted by `chromwide_ibs`. -/
inductive AnyGC where
  | dense (data : GenotypedChromosome)
  | sparse (c : SparseGenotypedChromosome)

/-- Modelled from the spec: the dense view materialized by `chromwide_ibs`
for each strand argument (§4.4): a dense container is used as is, a sparse
container is densified. -/
def toDenseView : AnyGC → List PyVal
  | .dense d => d
  | .sparse c => c.todenseSpec

/-- Modelled from the spec: `chromwide_ibs` (§4.4 and §7); the file
pydigree/ibs.py is not among the sources.  Materializes a dense view of each
of the four strands, raises the size-mismatch value error when the four
marker counts are not all equal, and otherwise applies single-marker IBS at
every position with the numeric missing sentinel. -/
def chromwide_ibs (a1 b1 a2 b2 : AnyGC) (missingval : ℤ) :
    Except GenoError (List ℤ) :=
  let da1 := toDenseView a1
  let db1 := toDenseView b1
  let da2 := toDenseView a2
  let db2 := toDenseView b2
  if da1.length = db1.length ∧ db1.length = da2.length ∧ da2.length = db2.length then
    .ok (List.zipWith (fun g1 g2 => (ibs g1 g2 (some missingval)).getD missingval)
      (da1.zip db1) (da2.zip db2))
  else
    .error .sizeMismatch

/-- Choose an encoding for a strand built from an integer allele sequence:
sparse when the flag is true, dense otherwise. -/
def encodeStrand (sp : Bool) (s : List ℤ) : AnyGC :=
  if sp then .sparse (ofInts s) else .dense (denseOfInts s)

/-- The chromosome template: a chromosome label and the four parallel
per-marker sequences (map position, physical position, marker label,
minor-allele frequency). -/
structure ChromosomeTemplate where
  label : Option String
  genetic_map : List ℚ
  physical_map : List (Option ℤ)
  frequencies : List ℚ
  labels : List (Option String)
deriving DecidableEq

/-- `ChromosomeTemplate.__init__`: empty parallel sequences. -/
def ChromosomeTemplate.init (label : Option String) : ChromosomeTemplate :=
  ⟨label, [], [], [], []⟩

/-- A frequency argument to `add_genotype`: a numeric value, Python `None`,
or a non-numeric value that `float()` rejects. -/
inductive FreqInput where
  | num (q : ℚ)
  | noneVal
  | nonnumeric

/-- The frequency conversion at the top of `add_genotype`: `None` becomes the
unset sentinel −1, numeric values convert, and a non-numeric value raises a
value error (the source converts the `TypeError` from `float` into a
`ValueError`, and `float`'s own `ValueError` propagates likewise) before any
sequence is touched. -/
def freqToFloat : FreqInput → Except GenoError ℚ
  | .num q => .ok q
  | .noneVal => .ok (-1)
  | .nonnumeric => .error .valueError

/-- `ChromosomeTemplate.add_genotype`: converts the frequency first, then
appends one entry to each of the four parallel sequences. -/
def ChromosomeTemplate.add_genotype (t : ChromosomeTemplate) (frequency : FreqInput)
    (map_position : ℚ) (lab : Option String) (bp : Option ℤ) :
    Except GenoError ChromosomeTemplate :=
  match freqToFloat frequency with
  | .error e => .error e
  | .ok f =>
      .ok { t with
        genetic_map := t.genetic_map ++ [map_position],
        frequencies := t.frequencies ++ [f],
        physical_map := t.physical_map ++ [bp],
        labels := t.labels ++ [lab] }

/-- `ChromosomeTemplate.set_frequency`: writes the frequency at the given
position in place; an out-of-range position raises `IndexError` with the
template unchanged. -/
def ChromosomeTemplate.set_frequency (t : ChromosomeTemplate) (position : ℕ)
    (frequency : ℚ) : Except GenoError ChromosomeTemplate :=
  if position < t.frequencies.length then
    .ok { t with frequencies := t.frequencies.set position frequency }
  else
    .error .indexError

/-- One mutating template operation: an append or a frequency overwrite. -/
inductive TemplateOp where
  | add (frequency : FreqInput) (map_position : ℚ) (lab : Option String) (bp : Option ℤ)
  | setFreq (position : ℕ) (frequency : ℚ)

/-- Apply one operation to a template.  When the operation raises, the
exception propagates to the caller before any sequence was modified, so the
template is unchanged. -/
def applyOp (t : ChromosomeTemplate) : TemplateOp → ChromosomeTemplate
  | .add f mp lab bp =>
      match t.add_genotype f mp lab bp with
      | .ok t' => t'
      | .error _ => t
  | .setFreq p f =>
      match t.set_frequency p f with
      | .ok t' => t'
      | .error _ => t

/-- Apply a sequence of template operations in order. -/
def applyOps (t : ChromosomeTemplate) (ops : List TemplateOp) : ChromosomeTemplate :=
  ops.foldl applyOp t

/-- The equal-length invariant of the four parallel marker sequences. -/
def parallelInvariant (t : ChromosomeTemplate) : Prop :=
  t.genetic_map.length = t.frequencies.length ∧
  t.genetic_map.length = t.physical_map.length ∧
  t.genetic_map.length = t.labels.length

instance (t : ChromosomeTemplate) : Decidable (parallelInvariant t) := by
  unfold parallelInvariant; infer_instance

/-- The per-marker draw-to-allele map of `linkageequilibrium_chromosome`:
the source computes `np.array(r > self.frequencies, dtype=np.uint8) + 1`, so
a draw strictly above the frequency yields allele code 2 and any other draw
yields code 1. -/
def leChromCode (f r : ℚ) : ℕ :=
  if f < r then 2 else 1

/-- The event, over real-valued uniform draws, that the draw-to-allele map of
`linkageequilibrium_chromosome` produces allele code 2: the draw strictly
exceeds the frequency. -/
def leDrawIsTwo (f r : ℝ) : Prop := f < r

/-- `ChromosomeTemplate.linkageequilibrium_chromosome`, with the batch of
uniform draws passed explicitly: raises the value error when any frequency is
still at the unset sentinel (negative), and otherwise maps each marker's draw
through the draw-to-allele map. -/
def linkageequilibrium_chromosome (freqs rs : List ℚ) : Except GenoError (List ℕ) :=
  if freqs.any (fun f => decide (f < 0)) then .error .valueError
  else .ok (List.zipWith leChromCode freqs rs)

/-! Helper lemmas about the sparse construction from integer data. -/

theorem array2missing_map_int (s : List ℤ) :
    array2missing (s.map PyVal.int) = [] := by
  unfold array2missing
  have h : (s.map PyVal.int).enum.filter (fun p => decide (p.2 = PyVal.str "")) = [] := by
    rw [List.filter_eq_nil_iff]
    rintro ⟨i, x⟩ hp
    rw [List.mk_mem_enum_iff_getElem?, List.getElem?_map] at hp
    rcases hgi : s[i]? with _ | v
    · rw [hgi] at hp; simp at hp
    · rw [hgi] at hp
      simp only [Option.map_some'] at hp
      cases hp
      simp
  rw [h]
  rfl

theorem lookup_enumFrom_filter_int (s : List ℤ) (n m : ℕ) :
    List.lookup m
      ((List.enumFrom n (s.map PyVal.int)).filter (fun p => decide (p.2 ≠ PyVal.int 0)))
      = if n ≤ m ∧ s.getD (m - n) 0 ≠ 0 then some (PyVal.int (s.getD (m - n) 0))
        else none := by
  induction s generalizing n with
  | nil =>
    simp
  | cons x xs ih =>
    rw [List.map_cons, List.enumFrom_cons, List.filter_cons]
    by_cases hx : x = 0
    · rw [if_neg (by simp [hx])]
      rw [ih (n + 1)]
      by_cases hmn : m = n
      · have h1 : ¬ (n + 1 ≤ m) := by omega
        have h2 : m - n = 0 := by omega
        simp [h1, h2, hmn, hx]
      · by_cases hle : n ≤ m
        · have hle' : n + 1 ≤ m := by omega
          have harith : m - n = (m - (n + 1)) + 1 := by omega
          rw [harith, List.getD_cons_succ]
          simp [hle, hle']
        · have hle' : ¬ (n + 1 ≤ m) := by omega
          simp [hle, hle']
    · rw [if_pos (by simp [hx])]
      rw [List.lookup_cons]
      by_cases hmn : m = n
      · subst hmn
        have hbeq : (m == m) = true := by simp
        have harith : m - m = 0 := Nat.sub_self m
        simp [hbeq, harith, hx]
      · have hbeq : (m == n) = false := by simp [hmn]
        simp only [hbeq]
        rw [ih (n + 1)]
        by_cases hle : n ≤ m
        · have hle' : n + 1 ≤ m := by omega
          have harith : m - n = (m - (n + 1)) + 1 := by omega
          rw [harith, List.getD_cons_succ]
          simp [hle, hle']
        · have hle' : ¬ (n + 1 ≤ m) := by omega
          simp [hle, hle']

theorem lookup_array2nonref_int (s : List ℤ) (j : ℕ) :
    List.lookup j (array2nonref true (s.map PyVal.int))
      = if s.getD j 0 ≠ 0 then some (PyVal.int (s.getD j 0)) else none := by
  have h := lookup_enumFrom_filter_int s 0 j
  rw [Nat.sub_zero] at h
  have hgoal : array2nonref true (s.map PyVal.int)
      = (List.enumFrom 0 (s.map PyVal.int)).filter
          (fun p => decide (p.2 ≠ PyVal.int 0)) := rfl
  rw [hgoal, h]
  by_cases hz : s.getD j 0 = 0
  · rw [if_neg (fun hc => hc.2 hz), if_neg (fun hc => hc hz)]
  · rw [if_pos ⟨Nat.zero_le j, hz⟩, if_pos hz]

/-- Densifying the sparse container built from an integer allele sequence
recovers the dense container built from that sequence. -/
theorem todenseSpec_ofInts (s : List ℤ) :
    (ofInts s).todenseSpec = denseOfInts s := by
  unfold ofInts SparseGenotypedChromosome.todenseSpec SparseGenotypedChromosome.ofData
    denseOfInts
  simp only [array2missing_map_int, List.not_mem_nil, if_false, List.length_map]
  apply List.ext_getElem
  · simp
  · intro j h1 h2
    simp only [List.getElem_map, List.getElem_range]
    have hlen : j < s.length := by simpa using h2
    rw [lookup_array2nonref_int s j]
    rw [List.getD_eq_getElem s 0 hlen]
    by_cases hz : s[j] = 0
    · rw [if_neg (by simp [hz])]
      simp [hz]
    · rw [if_pos hz]

/-- The dense view of an encoded strand is independent of the encoding. -/
theorem toDenseView_encodeStrand (e : Bool) (s : List ℤ) :
    toDenseView (encodeStrand e s) = denseOfInts s := by
  cases e
  · rfl
  · show toDenseView (.sparse (ofInts s)) = denseOfInts s
    exact todenseSpec_ofInts s

/-- C1: for every allele sequence and for all four strand arguments,
chromwide_ibs applied to Dense containers and chromwide_ibs applied to
Sparse containers constructed from the same underlying allele sequences
return arrays that are equal element-for-element: the per-marker IBS result
is independent of which encoding is used for any of the four strands. -/
theorem C1_chromwide_ibs_encoding_independent
    (e1 e2 e3 e4 : Bool) (s1 s2 s3 s4 : List ℤ) (mv : ℤ) :
    chromwide_ibs (encodeStrand e1 s1) (encodeStrand e2 s2)
        (encodeStrand e3 s3) (encodeStrand e4 s4) mv
      = chromwide_ibs (.dense (denseOfInts s1)) (.dense (denseOfInts s2))
        (.dense (denseOfInts s3)) (.dense (denseOfInts s4)) mv := by
  unfold chromwide_ibs
  simp only [toDenseView_encodeStrand]
  rfl

/-- C4: single-marker IBS is commutative in its two genotype arguments, for
every missing_value argument. -/
theorem C4_ibs_commutative (g1 g2 : PyVal × PyVal) (mv : Option ℤ) :
    ibs g1 g2 mv = ibs g2 g1 mv := by
  unfold ibs
  by_cases h : (g1.1 = PyVal.int 0 ∧ g1.2 = PyVal.int 0)
      ∨ (g2.1 = PyVal.int 0 ∧ g2.2 = PyVal.int 0)
  · rw [if_pos h, if_pos (Or.symm h)]
  · rw [if_neg h, if_neg (fun hc => h (Or.symm hc))]
    rw [Multiset.inter_comm]

/-- C2: evaluation of the source's sparse equality at the failing input.  The
sequences [3,0,5,7,0] and [3,0,5,0,7] both hold the non-reference allele 5 at
index 2, so the documented set-based comparison marks index 2 equal; the
source instead pairs `self.non_refalleles[2] = (3,7)` with
`other.non_refalleles[2] = (4,7)` — list positions, not chromosome indices —
and marks index 2 unequal. -/
theorem C2_sparse_eq_positional_defect :
    (ofInts [3, 0, 5, 7, 0]).eq (ofInts [3, 0, 5, 0, 7])
      = .ok [true, true, false, false, false] := by decide

/-- C3: evaluation of the source's `todense` at the failing input [1,2,0]:
every call raises `AttributeError` instead of returning the original
sequence, because the body references `np.zeroes`, `self.nmark` and
`self.nonref_alleles`, none of which exist. -/
theorem C3_todense_always_raises :
    (ofInts [1, 2, 0]).todense = .error .attributeError := rfl

/-- C5: evaluation of the sparse `missing` property at the failing input.
For the integer sequence [0,1,2] the claim's mask is [true,false,false]
(index 0 holds the integer missing sentinel 0), but `__array2missing` only
compares against the empty string, which no integer equals, so the code's
mask is all false.  For the string sequence ["","a","b"] the code agrees
with the claim. -/
theorem C5_sparse_missing_ignores_int_sentinel :
    (ofInts [0, 1, 2]).missing = [false, false, false]
    ∧ (ofStrs ["", "a", "b"]).missing = [true, false, false] := by decide

/-- C6: evaluation of the four ordering comparisons on dense containers at
the failing input.  `<` and `>` raise the not-meaningful error as claimed,
but `<=` and `>=` return elementwise boolean masks: the source names its
methods `__lte__` and `__gte__`, which are not the Python comparison hooks
(`__le__`, `__ge__`), so numpy's elementwise comparisons apply. -/
theorem C6_le_ge_not_disabled :
    GenotypedChromosome.lt (denseOfInts [1, 2]) (denseOfInts [1, 2])
        = .error .notMeaningful
    ∧ GenotypedChromosome.gt (denseOfInts [1, 2]) (denseOfInts [1, 2])
        = .error .notMeaningful
    ∧ GenotypedChromosome.le (denseOfInts [1, 2]) (denseOfInts [1, 2])
        = DenseCmpResult.mask [true, true]
    ∧ GenotypedChromosome.ge (denseOfInts [1, 2]) (denseOfInts [1, 2])
        = DenseCmpResult.mask [true, true] := by
  exact ⟨rfl, rfl, by decide, by decide⟩

/-- C7 counterexample: comparing two dense containers of different marker
counts with `==` does not raise the size-mismatch error; numpy's fallback
for non-broadcastable elementwise comparison returns the scalar False. -/
theorem C7_counterexample_dense_eq_no_raise :
    GenotypedChromosome.eq (denseOfInts [1, 2, 3]) (denseOfInts [1, 2])
      = DenseCmpResult.scalar false := by decide

/-- C7 as amended: on containers of different marker counts, sparse equality
and chromwide_ibs raise the size-mismatch value error, while dense
elementwise equality raises nothing — when neither operand has length 1 (the
numpy broadcast case) it returns the scalar False. -/
theorem C7_amended_size_mismatch (a b : List ℤ) (h : a.length ≠ b.length) :
    (ofInts a).eq (ofInts b) = .error .sizeMismatch
    ∧ chromwide_ibs (.dense (denseOfInts a)) (.dense (denseOfInts a))
        (.dense (denseOfInts b)) (.dense (denseOfInts b)) 64 = .error .sizeMismatch
    ∧ (a.length ≠ 1 → b.length ≠ 1 →
        GenotypedChromosome.eq (denseOfInts a) (denseOfInts b)
          = DenseCmpResult.scalar false) := by
  refine ⟨?_, ?_, ?_⟩
  · unfold SparseGenotypedChromosome.eq
    rw [if_pos (show (ofInts a).size ≠ (ofInts b).size from by
      simpa [ofInts, SparseGenotypedChromosome.ofData] using h)]
  · have hlen : ¬ ((denseOfInts a).length = (denseOfInts b).length) := by
      simpa [denseOfInts] using h
    simp [chromwide_ibs, toDenseView, hlen]
  · intro ha hb
    unfold GenotypedChromosome.eq npBroadcastCmp
    rw [if_neg (by simpa [denseOfInts] using h)]
    rcases a with _ | ⟨x, as⟩
    · rcases b with _ | ⟨y, bs⟩
      · exact absurd rfl h
      · rcases bs with _ | ⟨y', bs'⟩
        · exact absurd rfl hb
        · rfl
    · rcases as with _ | ⟨x', as'⟩
      · exact absurd rfl ha
      · rcases b with _ | ⟨y, bs⟩
        · rfl
        · rcases bs with _ | ⟨y', bs'⟩
          · exact absurd rfl hb
          · rfl

/-- Witness for the amended C7 at the concrete sizes 3 and 2. -/
theorem C7_amended_size_mismatch_witness :
    ([1, 2, 3] : List ℤ).length ≠ ([1, 2] : List ℤ).length
    ∧ ((ofInts [1, 2, 3]).eq (ofInts [1, 2]) = .error .sizeMismatch
      ∧ chromwide_ibs (.dense (denseOfInts [1, 2, 3])) (.dense (denseOfInts [1, 2, 3]))
          (.dense (denseOfInts [1, 2])) (.dense (denseOfInts [1, 2])) 64
            = .error .sizeMismatch
      ∧ (([1, 2, 3] : List ℤ).length ≠ 1 → ([1, 2] : List ℤ).length ≠ 1 →
          GenotypedChromosome.eq (denseOfInts [1, 2, 3]) (denseOfInts [1, 2])
            = DenseCmpResult.scalar false)) :=
  ⟨by decide, C7_amended_size_mismatch [1, 2, 3] [1, 2] (by decide)⟩

/-- The set of uniform draws in [0,1) that the draw-to-allele map sends to
allele code 2 is the interval (f, 1), of Lebesgue measure 1 − f. -/
theorem volume_leDrawIsTwo (f : ℝ) (h0 : 0 ≤ f) :
    MeasureTheory.volume {r : ℝ | r ∈ Set.Ico (0:ℝ) 1 ∧ leDrawIsTwo f r}
      = ENNReal.ofReal (1 - f) := by
  have hset : {r : ℝ | r ∈ Set.Ico (0:ℝ) 1 ∧ leDrawIsTwo f r} = Set.Ioo f 1 := by
    ext r
    simp only [Set.mem_setOf_eq, Set.mem_Ico, Set.mem_Ioo, leDrawIsTwo]
    constructor
    · rintro ⟨⟨hr0, hr1⟩, hfr⟩
      exact ⟨hfr, hr1⟩
    · rintro ⟨hfr, hr1⟩
      exact ⟨⟨le_trans h0 (le_of_lt hfr), hr1⟩, hfr⟩
  rw [hset, Real.volume_Ioo]

/-- C8 counterexample: with frequency 1/4, the set of uniform draws in [0,1)
mapped to allele code 2 has measure 3/4, not the 1/4 that the claim states —
the source emits code 2 when the draw exceeds the frequency. -/
theorem C8_counterexample_measure_not_frequency :
    MeasureTheory.volume {r : ℝ | r ∈ Set.Ico (0:ℝ) 1 ∧ leDrawIsTwo (1/4 : ℝ) r}
      = ENNReal.ofReal (3/4)
    ∧ ENNReal.ofReal ((3:ℝ)/4) ≠ ENNReal.ofReal ((1:ℝ)/4) := by
  constructor
  · rw [volume_leDrawIsTwo (1/4 : ℝ) (by norm_num)]
    norm_num
  · rw [Ne, ENNReal.ofReal_eq_ofReal_iff (by norm_num) (by norm_num)]
    norm_num

/-- C8 as amended: for a template whose frequencies are all set (none
negative), generation succeeds, marker i of the generated chromosome is the
draw-to-allele map applied to frequency i and draw i, that map yields allele
code 2 exactly on the event that the draw exceeds the frequency, and under
the uniform draw on [0,1) that event has measure 1 − frequency[i] (not
frequency[i]). -/
theorem C8_amended_allele2_measure (freqs rs : List ℚ) (i : ℕ) (hi : i < freqs.length)
    (hnn : ∀ g ∈ freqs, 0 ≤ g) :
    ∃ out, linkageequilibrium_chromosome freqs rs = .ok out ∧
      out = List.zipWith leChromCode freqs rs ∧
      (∀ r : ℚ, leChromCode (freqs.getD i 0) r = 2 ↔
        leDrawIsTwo ((freqs.getD i 0 : ℚ) : ℝ) ((r : ℚ) : ℝ)) ∧
      MeasureTheory.volume {r : ℝ | r ∈ Set.Ico (0:ℝ) 1 ∧
          leDrawIsTwo ((freqs.getD i 0 : ℚ) : ℝ) r}
        = ENNReal.ofReal (1 - ((freqs.getD i 0 : ℚ) : ℝ)) := by
  have hok : linkageequilibrium_chromosome freqs rs
      = .ok (List.zipWith leChromCode freqs rs) := by
    unfold linkageequilibrium_chromosome
    rw [if_neg]
    intro hc
    rw [List.any_eq_true] at hc
    obtain ⟨g, hg, hlt⟩ := hc
    exact absurd (hnn g hg) (by simpa using hlt)
  refine ⟨_, hok, rfl, ?_, ?_⟩
  · intro r
    unfold leChromCode leDrawIsTwo
    constructor
    · intro h2
      by_cases hfr : freqs.getD i 0 < r
      · exact_mod_cast hfr
      · rw [if_neg hfr] at h2
        exact absurd h2 (by decide)
    · intro hfr
      have hq : freqs.getD i 0 < r := by exact_mod_cast hfr
      rw [if_pos hq]
  · apply volume_leDrawIsTwo
    have hmem : freqs.getD i 0 ∈ freqs := by
      rw [List.getD_eq_getElem freqs 0 hi]
      exact List.getElem_mem hi
    exact_mod_cast hnn _ hmem

/-- Witness for the amended C8 at the one-marker template with frequency 1/4
and the draw 1/2. -/
theorem C8_amended_allele2_measure_witness :
    (0 < ([(1/4 : ℚ)]).length) ∧ (∀ g ∈ [(1/4 : ℚ)], 0 ≤ g) ∧
    (∃ out, linkageequilibrium_chromosome [(1/4 : ℚ)] [(1/2 : ℚ)] = .ok out ∧
      out = List.zipWith leChromCode [(1/4 : ℚ)] [(1/2 : ℚ)] ∧
      (∀ r : ℚ, leChromCode (([(1/4 : ℚ)]).getD 0 0) r = 2 ↔
        leDrawIsTwo ((([(1/4 : ℚ)]).getD 0 0 : ℚ) : ℝ) ((r : ℚ) : ℝ)) ∧
      MeasureTheory.volume {r : ℝ | r ∈ Set.Ico (0:ℝ) 1 ∧
          leDrawIsTwo ((([(1/4 : ℚ)]).getD 0 0 : ℚ) : ℝ) r}
        = ENNReal.ofReal (1 - ((([(1/4 : ℚ)]).getD 0 0 : ℚ) : ℝ))) :=
  ⟨by decide,
   by
     intro g hg
     rw [List.mem_singleton] at hg
     subst hg
     norm_num,
   C8_amended_allele2_measure [(1/4 : ℚ)] [(1/2 : ℚ)] 0 (by decide)
     (by
       intro g hg
       rw [List.mem_singleton] at hg
       subst hg
       norm_num)⟩

theorem applyOp_parallelInvariant (t : ChromosomeTemplate) (op : TemplateOp)
    (h : parallelInvariant t) : parallelInvariant (applyOp t op) := by
  rcases op with ⟨f, mp, lab, bp⟩ | ⟨p, fq⟩
  · dsimp only [applyOp]
    unfold ChromosomeTemplate.add_genotype
    rcases hf : freqToFloat f with e | q
    · exact h
    · obtain ⟨h1, h2, h3⟩ := h
      refine ⟨?_, ?_, ?_⟩ <;> simp only [List.length_append, List.length_singleton] <;>
        omega
  · dsimp only [applyOp]
    unfold ChromosomeTemplate.set_frequency
    by_cases hp : p < t.frequencies.length
    · rw [if_pos hp]
      obtain ⟨h1, h2, h3⟩ := h
      exact ⟨by simp [List.length_set, h1], h2, h3⟩
    · rw [if_neg hp]
      exact h

/-- C9: for every template satisfying the equal-length invariant of the four
parallel marker sequences, the invariant still holds after any sequence of
add_genotype and set_frequency operations — in particular after each single
operation, successful or raising. -/
theorem C9_parallel_lengths_invariant (t : ChromosomeTemplate) (ops : List TemplateOp)
    (h : parallelInvariant t) : parallelInvariant (applyOps t ops) := by
  induction ops generalizing t with
  | nil => exact h
  | cons op rest ih => exact ih (applyOp t op) (applyOp_parallelInvariant t op h)

/-- Witness for C9: the freshly initialized template satisfies the invariant
and keeps it across a mix of successful and raising operations. -/
theorem C9_parallel_lengths_invariant_witness :
    parallelInvariant (ChromosomeTemplate.init none) ∧
    parallelInvariant (applyOps (ChromosomeTemplate.init none)
      [.add (.num 1) 0 none none, .setFreq 0 0, .add .noneVal 2 none none,
       .add .nonnumeric 3 none none, .setFreq 5 1]) :=
  ⟨⟨rfl, rfl, rfl⟩,
   C9_parallel_lengths_invariant (ChromosomeTemplate.init none) _ ⟨rfl, rfl, rfl⟩⟩

/-- C10: when the template has at least position+1 frequencies,
set_frequency(position, f) succeeds and changes only the frequency entry at
that position: the chromosome label, the three other parallel sequences, the
frequency-list length, and every other frequency entry are unchanged. -/
theorem C10_set_frequency_frame (t : ChromosomeTemplate) (pos : ℕ) (f : ℚ)
    (h : pos < t.frequencies.length) :
    ∃ t', t.set_frequency pos f = .ok t'
      ∧ t'.label = t.label
      ∧ t'.genetic_map = t.genetic_map
      ∧ t'.physical_map = t.physical_map
      ∧ t'.labels = t.labels
      ∧ t'.frequencies.length = t.frequencies.length
      ∧ t'.frequencies[pos]? = some f
      ∧ ∀ j, j ≠ pos → t'.frequencies[j]? = t.frequencies[j]? := by
  refine ⟨{ t with frequencies := t.frequencies.set pos f }, ?_, rfl, rfl, rfl, rfl,
    List.length_set t.frequencies pos f, ?_, ?_⟩
  · unfold ChromosomeTemplate.set_frequency
    rw [if_pos h]
  · exact List.getElem?_set_eq_of_lt f h
  · intro j hj
    exact List.getElem?_set_ne (fun he => hj he.symm)

/-- A concrete two-marker template used as a witness input. -/
def sampleTemplate : ChromosomeTemplate :=
  ⟨none, [0, 1], [none, none], [0, 1], [none, none]⟩

/-- Witness for C10 at the concrete two-marker template, position 0. -/
theorem C10_set_frequency_frame_witness :
    0 < sampleTemplate.frequencies.length
    ∧ (∃ t', sampleTemplate.set_frequency 0 (1/2) = .ok t'
      ∧ t'.label = sampleTemplate.label
      ∧ t'.genetic_map = sampleTemplate.genetic_map
      ∧ t'.physical_map = sampleTemplate.physical_map
      ∧ t'.labels = sampleTemplate.labels
      ∧ t'.frequencies.length = sampleTemplate.frequencies.length
      ∧ t'.frequencies[0]? = some (1/2)
      ∧ ∀ j, j ≠ 0 → t'.frequencies[j]? = sampleTemplate.frequencies[j]?) :=
  ⟨by decide, C10_set_frequency_frame sampleTemplate 0 (1/2) (by decide)⟩
